import Mathlib

/-!
Verification of the rolling synthetic crime-assignment engine of
`cj_pipeline/synthetic_assignment.py`.

The pipeline is shallowly embedded: pandas columns of floats become `ℚ`
values, with `Option ℚ` where a column may hold NaN (a failed left join or a
missing rate); integer columns become `ℤ`; exceptions become `Except String`.
The numpy `RandomState` stream is external to the repository, so sampling is
modelled by a concrete pure generator threaded through every call exactly the
way the code threads `rng`.
-/

set_option autoImplicit false

namespace CJPipeline
/-- Round half to even, the semantics of numpy's `.round()` used on the
`total_crimes` column. -/
def roundHalfEven (q : ℚ) : ℤ :=
  let f : ℤ := ⌊q⌋
  let frac : ℚ := q - f
  if frac < 1/2 then f
  else if 1/2 < frac then f + 1
  else if f % 2 = 0 then f else f + 1

/-- Python `int(...)` truncation toward zero, the conversion applied to
`group['unobserved_crimes'].mean() / n_samples_div` in `_sample_unobserved`. -/
def truncRat (q : ℚ) : ℤ := if 0 ≤ q then ⌊q⌋ else ⌈q⌉

/-- numpy casts a float NaN to int64 silently (no exception); the resulting
value is implementation defined (INT64_MIN on x86-64), which is what
`np.where(...).round().astype('int')` produces for a NaN entry. -/
def npNanInt : ℤ := -(2 ^ 63)

/-- Test `pop[arrest_col] > 0` on a float column: a NaN compares as not-greater. -/
def arrestPositive : Option ℚ → Bool
  | some r => decide (0 < r)
  | none => false

/-- The group-level aggregate fed to `_count_unobserved`: summed observed
count, the joined arrest-rate and lambda-rate columns (NaN-able after the
`how='left'` merge) and the number of distinct individuals. -/
structure GroupAgg where
  offense_count : ℤ
  arrest : Option ℚ
  lambdaVal : Option ℚ
  pop_size : ℕ
  deriving Repr, DecidableEq

/-- Columns added by `_count_unobserved`. -/
structure EstimateOut where
  total_crimes : ℤ
  unobserved_crimes : ℤ
  unobserved_per_person : Option ℚ
  deriving Repr, DecidableEq

/-- Function `_count_unobserved` (synthetic_assignment.py lines 106-114):
`total_crimes = offense_count / arrest_rate`, multiplied by the lambda column
when the global `lam` override is `None` and by `lam` otherwise; the
`np.where` keeps that product only where the arrest rate is positive and
falls back to `offense_count` elsewhere; the result is rounded and cast to
int (a NaN product casts to the implementation-defined `npNanInt` without an
exception).  `unobserved_crimes` is the difference with the observed count
and `unobserved_per_person` divides it by `pop_size` (a float division that
is NaN only for an empty group, which the pipeline never produces). -/
def countUnobserved (lam : Option ℚ) (g : GroupAgg) : EstimateOut :=
  let mult : Option ℚ := match lam with
    | some l => some l
    | none => g.lambdaVal
  let raw : Option ℚ :=
    if arrestPositive g.arrest then
      match g.arrest, mult with
      | some ar, some m => some ((g.offense_count : ℚ) / ar * m)
      | _, _ => none
    else some ((g.offense_count : ℚ))
  let total : ℤ := match raw with
    | some q => roundHalfEven q
    | none => npNanInt
  let unobs : ℤ := total - g.offense_count
  { total_crimes := total
    unobserved_crimes := unobs
    unobserved_per_person :=
      if g.pop_size = 0 then none else some ((unobs : ℚ) / (g.pop_size : ℚ)) }

/-- The estimator together with the NaN guard of `_add_unobserved`
(lines 170-173): a NaN `unobserved_per_person` raises
`RuntimeError('Failed to assign unobserved offenses')`. -/
def estimatorChecked (lam : Option ℚ) (g : GroupAgg) : Except String EstimateOut :=
  let est := countUnobserved lam g
  match est.unobserved_per_person with
  | none => .error "Failed to assign unobserved offenses"
  | some _ => .ok est

/-- The claim's version of the estimator, written from the spec sentence
`total_crimes = observed_count / arrest_rate` if the override is absent, else
`observed_count / lam`, rounded; observed count when the rate is not
positive. -/
def specTotalCrimes (lam : Option ℚ) (g : GroupAgg) : ℤ :=
  if arrestPositive g.arrest then
    match lam, g.arrest with
    | some l, _ => roundHalfEven ((g.offense_count : ℚ) / l)
    | none, some ar => roundHalfEven ((g.offense_count : ℚ) / ar)
    | none, none => 0
  else g.offense_count

/-- Linear congruential generator standing in for the numpy `RandomState`
stream (the stream itself lives outside the repository); the state is
threaded explicitly through every sampling call exactly as the code threads
`rng`. -/
def rngNext (s : ℕ) : ℕ := (1103515245 * s + 12345) % 2147483648

/-- One melted row as seen by the `_sample` closure: the individual id, the
group's `unobserved_crimes` value carried by the row after the merge, and the
row's `crime_weight`. -/
structure SampleRow where
  uid : ℕ
  unobserved : ℤ
  weight : ℚ
  deriving Repr, DecidableEq

/-- One weighted draw: walk the cumulative weights until the target falls in
a row's band; `dflt` is only returned for an empty list, which the sampler
never passes. -/
def pickFrom (dflt : ℕ) : List SampleRow → ℚ → ℕ
  | [], _ => dflt
  | r :: rs, t => if t < r.weight then r.uid else pickFrom r.uid rs (t - r.weight)

/-- Model of `group['def.uid'].sample(n=n_samples, replace=True, weights=...,
random_state=rng)`: `n` weighted draws with replacement, each advancing the
generator state. -/
def sampleWeighted (rows : List SampleRow) : ℕ → ℕ → List ℕ × ℕ
  | 0, s => ([], s)
  | n + 1, s =>
    let s2 := rngNext s
    let u := pickFrom 0 rows
      (((s2 % 1024 : ℕ) : ℚ) / 1024 * (rows.map (·.weight)).sum)
    let rest := sampleWeighted rows n s2
    (u :: rest.1, rest.2)

/-- Model of `list(Counter(samples).items())`: collapse the drawn ids into
(id, multiplicity) pairs. -/
def toCounter (l : List ℕ) : List (ℕ × ℕ) := l.dedup.map fun u => (u, l.count u)

/-- The `_sample` closure of `_sample_unobserved` (lines 118-133): raise on
more than one distinct `unobserved_crimes` value in the group; compute
`n_samples = int(mean / n_samples_div)` (Python truncation toward zero);
return no assignments when the total weight is non-positive or fewer than one
sample is needed; otherwise draw and collapse. -/
def sampleGroup (nDiv : ℚ) (rows : List SampleRow) (s : ℕ) :
    Except String (Option (List (ℕ × ℕ)) × ℕ) :=
  if 1 < ((rows.map (·.unobserved)).dedup).length then
    .error "Conflicting no. of unobserved crimes to be generated"
  else
    let mean : ℚ := (((rows.map (·.unobserved)).sum : ℤ) : ℚ) / (rows.length : ℚ)
    let nSamples : ℤ := truncRat (mean / nDiv)
    if (rows.map (·.weight)).sum ≤ 0 ∨ nSamples < 1 then .ok (none, s)
    else
      let res := sampleWeighted rows nSamples.toNat s
      .ok (some (toCounter res.1), res.2)

/-- The rate-table row matched to a group by the `how='left'` merge in
`_add_unobserved`; `none` stands for a NaN (no matching row or a missing
value). -/
structure RateRow where
  arrest : Option ℚ
  lambdaVal : Option ℚ
  deriving Repr, DecidableEq

/-- The group aggregate built in `_add_unobserved` (lines 150-157): summed
observed count, the matched rate columns, and `pop_size = nunique(def.uid)`. -/
def aggOf {α : Type} (uidOf : α → ℕ) (countOf : α → ℤ)
    (rate : RateRow) (rows : List α) : GroupAgg :=
  { offense_count := (rows.map countOf).sum
    arrest := rate.arrest
    lambdaVal := rate.lambdaVal
    pop_size := ((rows.map uidOf).dedup).length }

/-- The merged-back `offense_unobserved` of one individual
(`pd.merge(..., how='left')` then `fillna(0).astype('int')`). -/
def assignedOf (c : Option (List (ℕ × ℕ))) (u : ℕ) : ℤ :=
  match c with
  | none => 0
  | some l => (((l.lookup u).getD 0 : ℕ) : ℤ)

/-- Function `_add_unobserved` (lines 145-185) restricted to one sampling group: join
the group to its rate row, run the estimator and its NaN guard, build
`crime_weight = unobserved_per_person + omega * offense_count` per row,
sample the group, and merge the collapsed counts back onto the rows, forming
`offense_total = offense_count + offense_unobserved`.  Output rows are
`(input row, offense_unobserved, offense_total)`. -/
def addUnobservedGroup {α : Type} (uidOf : α → ℕ) (countOf : α → ℤ)
    (lam : Option ℚ) (omega : ℚ) (nDiv : ℚ) (rate : RateRow)
    (rows : List α) (s : ℕ) : Except String (List (α × ℤ × ℤ) × ℕ) :=
  match estimatorChecked lam (aggOf uidOf countOf rate rows) with
  | .error e => .error e
  | .ok est =>
    let perP : ℚ := est.unobserved_per_person.getD 0
    let srows : List SampleRow := rows.map fun r =>
      ⟨uidOf r, est.unobserved_crimes, perP + omega * countOf r⟩
    match sampleGroup nDiv srows s with
    | .error e => .error e
    | .ok (c, s2) =>
      .ok (rows.map fun r =>
        (r, assignedOf c (uidOf r), countOf r + assignedOf c (uidOf r)), s2)

/-- Gregorian leap-year rule, the calendar behind the pandas datetime
subtraction used in `_add_age`. -/
def isLeapYear (y : ℕ) : Bool := y % 4 == 0 && (y % 100 != 0 || y % 400 == 0)

def daysInYear (y : ℕ) : ℕ := if isLeapYear y then 366 else 365

/-- A date of birth: calendar year and zero-based day offset into that
year. -/
structure Date where
  year : ℕ
  dayOfYear : ℕ
  deriving Repr, DecidableEq

/-- Value of `(pd.to_datetime(str(end_year)) - pd.to_datetime(df['def.dob'])).dt.days`:
the day count from `dob` to January 1 of `endYear`, for dobs not after that
day. -/
def ageDays (endYear : ℕ) (dob : Date) : ℤ :=
  ((((List.range (endYear - dob.year)).map fun i => daysInYear (dob.year + i)).sum : ℕ) : ℤ)
    - (dob.dayOfYear : ℤ)

/-- Function `_add_age` (lines 93-103) restricted to one row: fractional age is the
day count over `365.25`; the row must pass the `age > 10` filter; `pd.cut`
with bins `(0,17], (17,29], (29,500]` labels it, label `< 18` rows are then
removed, and an age beyond the last bin becomes the string `nan` (kept).
Returns `none` when the row is dropped, otherwise its `age_cat` label. -/
def addAgeRow (endYear : ℕ) (dob : Date) : Option String :=
  let age : ℚ := ((ageDays endYear dob : ℤ) : ℚ) / (36525 / 100)
  if 10 < age then
    if 0 < age ∧ age ≤ 17 then none
    else if 17 < age ∧ age ≤ 29 then some "18-29"
    else if 29 < age ∧ age ≤ 500 then some "> 29"
    else some "nan"
  else none

/-- The offense categories governed by the self-report (NSDUH) source
(line 219). -/
def nsduhCrimes : List String := ["dui", "drugs_use", "drugs_sell"]

/-- One cohort individual as supplied per year by the Cohort Provider
(`init_neulaw`), with one observed count per offense category. -/
structure Person where
  uid : ℕ
  gender : String
  race : String
  ageCat : String
  dob : Date
  counts : List (String × ℤ)
  deriving Repr, DecidableEq

/-- One melted row (`df.melt(...)`, lines 212-215): one row per
(individual, offense category). -/
structure WRow where
  uid : ℕ
  gender : String
  race : String
  ageCat : String
  dob : Date
  offense_category : String
  offense_count : ℤ
  deriving Repr, DecidableEq

/-- The wide-to-tall melt: one output row per (individual, offense). -/
def melt (crimes : List String) (people : List Person) : List WRow :=
  people.flatMap fun p => crimes.map fun c =>
    ⟨p.uid, p.gender, p.race, p.ageCat, p.dob, c, (p.counts.lookup c).getD 0⟩

abbrev GKey := String × String × String × String

/-- Modelled from the spec: the grouping-key column lists `NEULAW_TO_NCVS`
and `NEULAW_TO_NSDUH` live in the repository's `config.py`, which is not
among the sources here; §4.3 of the spec describes them as the
demographic + offense-category grouping key used for the rate-table join and
the group-by. -/
def groupKey (r : WRow) : GKey :=
  (r.gender, r.race, r.ageCat, r.offense_category)

/-- Model of `df.groupby(group_all).apply(_sample)` driving `_add_unobserved` group by
group in key order, threading the generator state. -/
def processGroups (lam : Option ℚ) (omega : ℚ) (nDiv : ℚ)
    (rates : GKey → RateRow) :
    List GKey → List WRow → ℕ → Except String (List (WRow × ℤ × ℤ) × ℕ)
  | [], _, s => .ok ([], s)
  | k :: ks, rows, s =>
    match addUnobservedGroup (fun r : WRow => r.uid) (fun r : WRow => r.offense_count)
        lam omega nDiv (rates k) (rows.filter fun r => groupKey r = k) s with
    | .error e => .error e
    | .ok (out, s2) =>
      match processGroups lam omega nDiv rates ks rows s2 with
      | .error e => .error e
      | .ok (rest, s3) => .ok (out ++ rest, s3)

/-- One partition (victimization- or self-report-governed melted rows) run
through `_add_unobserved`: each distinct grouping key is processed once. -/
def processPartition (lam : Option ℚ) (omega : ℚ) (nDiv : ℚ)
    (rates : GKey → RateRow) (rows : List WRow) (s : ℕ) :
    Except String (List (WRow × ℤ × ℤ) × ℕ) :=
  processGroups lam omega nDiv rates ((rows.map groupKey).dedup) rows s

/-- The body of `_window` after the configuration guard (lines 206-233):
melt, partition by governing source, impute each partition, recombine, and
check that the row count is unchanged (`RuntimeError` otherwise). -/
def windowBody (crimes : List String) (cohort : ℤ → List Person)
    (ncvsRates nsduhRates : ℤ → GKey → RateRow)
    (window : ℤ) (lam : Option ℚ) (omega : ℚ)
    (windowEnd : ℤ) (nDiv : ℚ) (s : ℕ) :
    Except String (List (WRow × ℤ × ℤ) × ℕ) :=
  let year := windowEnd - window
  let df := melt crimes (cohort year)
  let lenBefore := df.length
  match processPartition lam omega nDiv (ncvsRates year)
      (df.filter fun r => ¬ r.offense_category ∈ nsduhCrimes) s with
  | .error e => .error e
  | .ok (out1, s1) =>
    match processPartition lam omega nDiv (nsduhRates year)
        (df.filter fun r => r.offense_category ∈ nsduhCrimes) s1 with
    | .error e => .error e
    | .ok (out2, s2) =>
      if (out1 ++ out2).length ≠ lenBefore then
        .error "Bug: sampling of unobserved changed the size of the data"
      else .ok (out1 ++ out2, s2)

/-- Function `_window` (lines 199-241): the guard `start_year <= window_end - window
<= end_year` is checked before any provider is consulted; then the body
runs.  (The pivot back to wide format is `pivotWide` below.) -/
def windowStep (crimes : List String) (cohort : ℤ → List Person)
    (ncvsRates nsduhRates : ℤ → GKey → RateRow)
    (startYear endYear window : ℤ) (lam : Option ℚ) (omega : ℚ)
    (windowEnd : ℤ) (nDiv : ℚ) (s : ℕ) :
    Except String (List (WRow × ℤ × ℤ) × ℕ) :=
  if ¬ (startYear ≤ windowEnd - window ∧ windowEnd - window ≤ endYear) then
    .error "Last year not compatible with start year and window."
  else
    windowBody crimes cohort ncvsRates nsduhRates window lam omega windowEnd nDiv s

/-- One wide output row of `pd.pivot_table(..., values='offense_total',
index=['def.gender', 'calc.race', 'def.uid', 'def.dob', 'age_cat'])`. -/
structure WideRow where
  gender : String
  race : String
  uid : ℕ
  dob : Date
  ageCat : String
  counts : List (String × ℤ)
  deriving Repr, DecidableEq

def pivotKey (o : WRow × ℤ × ℤ) : String × String × ℕ × Date × String :=
  (o.1.gender, o.1.race, o.1.uid, o.1.dob, o.1.ageCat)

/-- The tall-to-wide pivot (lines 236-239): one row per individual, one
summed `offense_total` per offense category. -/
def pivotWide (crimes : List String) (outs : List (WRow × ℤ × ℤ)) : List WideRow :=
  ((outs.map pivotKey).dedup).map fun k =>
    { gender := k.1, race := k.2.1, uid := k.2.2.1, dob := k.2.2.2.1
      ageCat := k.2.2.2.2
      counts := crimes.map fun c =>
        (c, ((outs.filter fun o => pivotKey o = k ∧ o.1.offense_category = c).map
              fun o => o.2.2).sum) }

/-- The rolling loop of `rolling_crime_assignment` (lines 59-63): window
end-years in order, full-scale sampling for the first window and
`n_samples_div = window + 1` for every later one, threading the generator
state across windows. -/
def foldWindows (crimes : List String) (cohort : ℤ → List Person)
    (r1 r2 : ℤ → GKey → RateRow) (startYear endYear window : ℤ)
    (lam : Option ℚ) (omega : ℚ) :
    List ℕ → ℕ → Except String (List WideRow × ℕ)
  | [], s => .ok ([], s)
  | i :: is, s =>
    match windowStep crimes cohort r1 r2 startYear endYear window lam omega
        (startYear + window + (i : ℤ)) (if i = 0 then 1 else (window : ℚ) + 1) s with
    | .error e => .error e
    | .ok (out, s1) =>
      match foldWindows crimes cohort r1 r2 startYear endYear window lam omega is s1 with
      | .error e => .error e
      | .ok (rest, s2) => .ok (pivotWide crimes out ++ rest, s2)

def regroupKey (w : WideRow) : String × String × ℕ × Date :=
  (w.gender, w.race, w.uid, w.dob)

/-- Lines 66-67: drop the window-local age category, group by the remaining
identity/demographic columns, and sum the per-offense totals across
windows. -/
def regroup (crimes : List String) (rows : List WideRow) : List WideRow :=
  ((rows.map regroupKey).dedup).map fun k =>
    { gender := k.1, race := k.2.1, uid := k.2.2.1, dob := k.2.2.2, ageCat := ""
      counts := crimes.map fun c =>
        (c, ((rows.filter fun w => regroupKey w = k).map
              fun w => (w.counts.lookup c).getD 0).sum) }

/-- Function `_add_age` over the regrouped table: recompute the age category from the
date of birth relative to `end_year`, dropping the filtered rows. -/
def addAge (endYear : ℕ) (rows : List WideRow) : List WideRow :=
  rows.filterMap fun w =>
    match addAgeRow endYear w.dob with
    | none => none
    | some cat => some { w with ageCat := cat }

/-- Function `rolling_crime_assignment` (lines 51-70): create the generator from the
seed, run one window per end-year from `start_year + window` to `end_year`,
concatenate, regroup, and re-derive the age category as of `end_year`. -/
def rollingCrimeAssignment (crimes : List String) (cohort : ℤ → List Person)
    (r1 r2 : ℤ → GKey → RateRow) (startYear endYear window : ℤ)
    (lam : Option ℚ) (omega : ℚ) (seed : ℕ) :
    Except String (List WideRow) :=
  match foldWindows crimes cohort r1 r2 startYear endYear window lam omega
      (List.range (endYear + 1 - (startYear + window)).toNat) seed with
  | .error e => .error e
  | .ok (rows, _) => .ok (addAge endYear.toNat (regroup crimes rows))

/-- A one-person, one-offense cohort and an all-ones rate table, used to
exercise the pipeline on concrete data. -/
def examplePerson : Person := ⟨1, "M", "W", "18-29", ⟨1980, 0⟩, [("theft", 2)]⟩

def exampleCohort : ℤ → List Person := fun _ => [examplePerson]

def exampleRates : ℤ → GKey → RateRow := fun _ _ => ⟨some 1, some 1⟩

def exampleRow : WRow := ⟨1, "M", "W", "18-29", ⟨1980, 0⟩, "theft", 2⟩

theorem roundHalfEven_intCast (n : ℤ) : roundHalfEven (n : ℚ) = n := by
  simp [roundHalfEven]

/-- C1 counterexample: with `observed_count = 10`, `arrest_rate = 1/2` and the
global override `lam = 2`, the code computes
`total_crimes = round(10 / (1/2) * 2) = 40`, while the claim's formula
`observed_count / lam` gives `round(10 / 2) = 5`. -/
theorem countUnobserved_ne_spec_at_input :
    (countUnobserved (some 2) ⟨10, some (1/2), some 1, 1⟩).total_crimes = 40 ∧
    specTotalCrimes (some 2) ⟨10, some (1/2), some 1, 1⟩ = 5 ∧
    (40 : ℤ) ≠ 5 := by
  refine ⟨?_, ?_, by decide⟩
  · norm_num [countUnobserved, arrestPositive, roundHalfEven]
  · norm_num [specTotalCrimes, arrestPositive, roundHalfEven]

/-- C1 (amended): when the arrest rate is positive, `total_crimes` is
`observed_count * lam / arrest_rate` rounded half-to-even if the override is
present, else `observed_count * lambda / arrest_rate` rounded; when the
arrest rate is not positive (or missing), `total_crimes = observed_count`;
and in every case `unobserved_crimes = total_crimes - observed_count`. -/
theorem countUnobserved_total_correct (lam : Option ℚ) (g : GroupAgg) :
    (∀ ar : ℚ, g.arrest = some ar → 0 < ar →
      (∀ l : ℚ, lam = some l →
        (countUnobserved lam g).total_crimes =
          roundHalfEven ((g.offense_count : ℚ) / ar * l)) ∧
      (lam = none → ∀ lv : ℚ, g.lambdaVal = some lv →
        (countUnobserved lam g).total_crimes =
          roundHalfEven ((g.offense_count : ℚ) / ar * lv))) ∧
    (arrestPositive g.arrest = false →
      (countUnobserved lam g).total_crimes = g.offense_count) ∧
    (countUnobserved lam g).unobserved_crimes =
      (countUnobserved lam g).total_crimes - g.offense_count := by
  refine ⟨?_, ?_, rfl⟩
  · intro ar har hpos
    constructor
    · intro l hl
      subst hl
      simp [countUnobserved, har, arrestPositive, hpos]
    · rintro rfl lv hlv
      simp [countUnobserved, har, hlv, arrestPositive, hpos]
  · intro hneg
    simp [countUnobserved, hneg, roundHalfEven_intCast]

/-- Witness for the amended C1 theorem at concrete inputs: override present
(`lam = 2`) and absent (lambda column `2/5`), plus the non-positive branch. -/
theorem countUnobserved_total_correct_witness :
    (countUnobserved (some 2) ⟨10, some (1/2), some 1, 1⟩).total_crimes =
      roundHalfEven ((10 : ℚ) / (1/2) * 2) ∧
    (countUnobserved none ⟨10, some (1/2), some (2/5), 1⟩).total_crimes =
      roundHalfEven ((10 : ℚ) / (1/2) * (2/5)) ∧
    (countUnobserved none ⟨7, some 0, some 1, 1⟩).total_crimes = 7 := by
  refine ⟨?_, ?_, ?_⟩
  · exact ((countUnobserved_total_correct (some 2)
      ⟨10, some (1/2), some 1, 1⟩).1 (1/2) rfl (by norm_num)).1 2 rfl
  · exact ((countUnobserved_total_correct none
      ⟨10, some (1/2), some (2/5), 1⟩).1 (1/2) rfl (by norm_num)).2 rfl (2/5) rfl
  · exact (countUnobserved_total_correct none ⟨7, some 0, some 1, 1⟩).2.1
      (by norm_num [arrestPositive])

theorem dedup_of_const {α : Type} [DecidableEq α] (u : α) :
    ∀ l : List α, l ≠ [] → (∀ x ∈ l, x = u) → l.dedup = [u]
  | [], h, _ => absurd rfl h
  | [x], _, hall => by
      have hx : x = u := hall x (by simp)
      simp [hx]
  | x :: y :: l, _, hall => by
      have hx : x = u := hall x (by simp)
      have hy : y = u := hall y (by simp)
      have htail : (y :: l).dedup = [u] :=
        dedup_of_const u (y :: l) (by simp) (fun z hz => hall z (List.mem_cons_of_mem x hz))
      have hmem : x ∈ y :: l := by
        rw [hx, hy]; simp
      rw [List.dedup_cons_of_mem hmem, htail]

theorem sum_of_const {α : Type} (f : α → ℤ) (u : ℤ) :
    ∀ l : List α, (∀ x ∈ l, f x = u) → (l.map f).sum = u * l.length
  | [], _ => by simp
  | x :: l, hall => by
      have hx : f x = u := hall x (by simp)
      have htail := sum_of_const f u l (fun z hz => hall z (by simp [hz]))
      simp [hx, htail]
      ring

theorem sampleWeighted_length (rows : List SampleRow) :
    ∀ (n : ℕ) (s : ℕ), (sampleWeighted rows n s).1.length = n
  | 0, _ => rfl
  | n + 1, s => by
      simp [sampleWeighted, sampleWeighted_length rows n]

theorem pickFrom_mem :
    ∀ (rows : List SampleRow) (d : ℕ) (t : ℚ), rows ≠ [] →
      pickFrom d rows t ∈ rows.map (·.uid)
  | [], _, _, h => absurd rfl h
  | [r], d, t, _ => by
      by_cases hc : t < r.weight <;> simp [pickFrom, hc]
  | r :: r2 :: rs, d, t, _ => by
      by_cases hc : t < r.weight
      · simp [pickFrom, hc]
      · have := pickFrom_mem (r2 :: rs) r.uid (t - r.weight) (by simp)
        simp only [pickFrom, hc, if_false]
        simp only [List.map_cons]
        exact List.mem_cons_of_mem _ this

theorem sampleWeighted_mem (rows : List SampleRow) (hne : rows ≠ []) :
    ∀ (n : ℕ) (s : ℕ) (x : ℕ), x ∈ (sampleWeighted rows n s).1 →
      x ∈ rows.map (·.uid)
  | 0, _, _, hx => by simp [sampleWeighted] at hx
  | n + 1, s, x, hx => by
      simp only [sampleWeighted, List.mem_cons] at hx
      rcases hx with hx | hx
      · rw [hx]; exact pickFrom_mem rows 0 _ hne
      · exact sampleWeighted_mem rows hne n (rngNext s) x hx

/-- C3: the `_sample` closure raises exactly when a group carries more than
one distinct `unobserved_crimes` value; with a single distinct value (or an
empty column) the group is never rejected by this check. -/
theorem sampleGroup_conflict_check (nDiv : ℚ) (rows : List SampleRow) (s : ℕ) :
    (1 < ((rows.map (·.unobserved)).dedup).length →
      sampleGroup nDiv rows s =
        .error "Conflicting no. of unobserved crimes to be generated") ∧
    (((rows.map (·.unobserved)).dedup).length ≤ 1 →
      (sampleGroup nDiv rows s).isOk = true) := by
  constructor
  · intro h
    simp [sampleGroup, h]
  · intro h
    simp only [sampleGroup, Nat.not_lt.2 h, if_false]
    split <;> rfl

/-- Witness for C3: a group with two distinct unobserved values errors; a
group with a single value does not. -/
theorem sampleGroup_conflict_check_witness :
    sampleGroup 1 [⟨1, 3, 1⟩, ⟨2, 4, 1⟩] 0 =
      .error "Conflicting no. of unobserved crimes to be generated" ∧
    (sampleGroup 1 [⟨1, 3, 1⟩] 0).isOk = true := by
  constructor
  · exact (sampleGroup_conflict_check 1 [⟨1, 3, 1⟩, ⟨2, 4, 1⟩] 0).1 (by decide)
  · exact (sampleGroup_conflict_check 1 [⟨1, 3, 1⟩] 0).2 (by decide)

theorem sum_map_add_nat {α : Type} (f g : α → ℕ) :
    ∀ l : List α, (l.map fun x => f x + g x).sum = (l.map f).sum + (l.map g).sum
  | [] => by simp
  | x :: l => by simp [sum_map_add_nat f g l]; omega

theorem sum_map_ite_one {α : Type} [DecidableEq α] (a : α) :
    ∀ keys : List α, keys.Nodup → a ∈ keys →
      (keys.map fun k => if k = a then (1 : ℕ) else 0).sum = 1
  | [], _, ha => by simp at ha
  | k :: keys, hnd, ha => by
      rcases List.mem_cons.1 ha with h | h
      · have hrest : (keys.map fun k => if k = a then (1 : ℕ) else 0).sum = 0 := by
          apply List.sum_eq_zero
          intro x hx
          rcases List.mem_map.1 hx with ⟨y, hy, hxy⟩
          have : y ≠ a := fun hya => (List.nodup_cons.1 hnd).1 (h ▸ hya ▸ hy)
          simp [← hxy, this]
        simp [← h, hrest]
      · have : k ≠ a := fun hka => (List.nodup_cons.1 hnd).1 (hka ▸ h)
        have := sum_map_ite_one a keys (List.nodup_cons.1 hnd).2 h
        simp [this, ‹k ≠ a›]

theorem sum_count_eq_length (keys : List ℕ) (hnd : keys.Nodup) :
    ∀ l : List ℕ, (∀ x ∈ l, x ∈ keys) →
      (keys.map fun k => l.count k).sum = l.length
  | [], _ => by simp
  | a :: l, hall => by
      have ha : a ∈ keys := hall a (by simp)
      have htail := sum_count_eq_length keys hnd l
        (fun x hx => hall x (List.mem_cons_of_mem a hx))
      have hsplit : (keys.map fun k => (a :: l).count k).sum =
          (keys.map fun k => l.count k).sum +
          (keys.map fun k => if k = a then (1 : ℕ) else 0).sum := by
        rw [← sum_map_add_nat]
        congr 1
        apply List.map_congr_left
        intro k _
        by_cases h : k = a
        · simp [List.count_cons, h]
        · simp [List.count_cons, h, Ne.symm h]
      rw [hsplit, htail, sum_map_ite_one a keys hnd ha]
      simp

theorem lookup_map_pair (f : ℕ → ℕ) (u : ℕ) :
    ∀ keys : List ℕ,
      (((keys.map fun k => (k, f k)).lookup u).getD 0) =
        if u ∈ keys then f u else 0
  | [] => by simp [List.lookup]
  | k :: keys => by
      by_cases hk : u = k
      · simp [List.lookup, hk]
      · have hbeq : (u == k) = false := beq_eq_false_iff_ne.2 hk
        simp only [List.map_cons, List.lookup, hbeq]
        rw [lookup_map_pair f u keys]
        simp [List.mem_cons, hk]

theorem lookup_toCounter (l : List ℕ) (u : ℕ) :
    (((toCounter l).lookup u).getD 0) = l.count u := by
  rw [toCounter, lookup_map_pair]
  by_cases hu : u ∈ l.dedup
  · simp [hu]
  · have : u ∉ l := fun h => hu (List.mem_dedup.2 h)
    simp [hu, List.count_eq_zero.2 this]

theorem counter_snd_sum (l : List ℕ) :
    ((toCounter l).map Prod.snd).sum = l.length := by
  have : (toCounter l).map Prod.snd = l.dedup.map fun u => l.count u := by
    simp [toCounter]
  rw [this]
  exact sum_count_eq_length l.dedup (List.nodup_dedup l) l
    (fun x hx => List.mem_dedup.2 hx)

/-- C2 counterexample: a group with `unobserved_crimes = 7` and
`n_samples_div = 4` draws `int(7/4) = 1` token, while the claim's
`round(7/4) = 2` would require two. -/
theorem sampleGroup_count_ne_round :
    sampleGroup 4 [⟨1, 7, 1⟩] 0 = .ok (some [(1, 1)], rngNext 0) ∧
    roundHalfEven ((7 : ℚ) / 4) = 2 ∧ (1 : ℕ) ≠ 2 := by
  refine ⟨?_, by norm_num [roundHalfEven], by decide⟩
  norm_num [sampleGroup, truncRat, sampleWeighted, pickFrom, toCounter, rngNext]

/-- Behaviour of the `_sample` closure on a group whose rows all carry one
unobserved value `u`: the no-op branch and the exact sampling equation. -/
theorem sampleGroup_const_run (nDiv : ℚ) (rows : List SampleRow) (s : ℕ) (u : ℤ)
    (hne : rows ≠ []) (hu : ∀ r ∈ rows, r.unobserved = u) :
    (((rows.map (·.weight)).sum ≤ 0 ∨ truncRat ((u : ℚ) / nDiv) < 1) →
      sampleGroup nDiv rows s = .ok (none, s)) ∧
    (0 < (rows.map (·.weight)).sum → 1 ≤ truncRat ((u : ℚ) / nDiv) →
      sampleGroup nDiv rows s =
        .ok (some (toCounter
              (sampleWeighted rows (truncRat ((u : ℚ) / nDiv)).toNat s).1),
            (sampleWeighted rows (truncRat ((u : ℚ) / nDiv)).toNat s).2)) := by
  have hconst : ∀ x ∈ rows.map (·.unobserved), x = u := by
    intro x hx
    rcases List.mem_map.1 hx with ⟨r, hr, hxr⟩
    rw [← hxr]; exact hu r hr
  have hmapne : rows.map (·.unobserved) ≠ [] := by
    intro h
    exact hne (List.map_eq_nil_iff.1 h)
  have hded : (rows.map (·.unobserved)).dedup = [u] :=
    dedup_of_const u _ hmapne hconst
  have hg : ¬ (1 < ((rows.map (·.unobserved)).dedup).length) := by
    rw [hded]; simp
  have hlen : (rows.length : ℚ) ≠ 0 := by
    have h0 : rows.length ≠ 0 := fun h => hne (List.length_eq_zero.1 h)
    exact_mod_cast h0
  have hsum : (rows.map (·.unobserved)).sum = u * rows.length := by
    have := sum_of_const (·.unobserved) u rows hu
    simpa using this
  have hmean : ((((rows.map (·.unobserved)).sum : ℤ) : ℚ) / (rows.length : ℚ)) = (u : ℚ) := by
    rw [hsum]
    push_cast
    field_simp
  constructor
  · intro hcond
    simp only [sampleGroup, if_neg hg, hmean]
    rw [if_pos hcond]
  · intro hw hn
    simp only [sampleGroup, if_neg hg, hmean]
    rw [if_neg (by push_neg; exact ⟨hw, by omega⟩)]

/-- C2 (amended): for a nonempty group whose rows all carry the single
unobserved value `u`, the sampler draws `int(u / n_samples_div)` tokens
(Python truncation toward zero, not rounding): when the total weight is
non-positive or fewer than one token is needed it returns no assignments and
raises no error, and otherwise the collapsed counts sum to exactly that
truncated quotient. -/
theorem sampleGroup_samples_count (nDiv : ℚ) (rows : List SampleRow) (s : ℕ) (u : ℤ)
    (hne : rows ≠ []) (hu : ∀ r ∈ rows, r.unobserved = u) :
    (((rows.map (·.weight)).sum ≤ 0 ∨ truncRat ((u : ℚ) / nDiv) < 1) →
      sampleGroup nDiv rows s = .ok (none, s)) ∧
    (0 < (rows.map (·.weight)).sum → 1 ≤ truncRat ((u : ℚ) / nDiv) →
      ∃ c s2, sampleGroup nDiv rows s = .ok (some c, s2) ∧
        ((c.map Prod.snd).sum : ℤ) = truncRat ((u : ℚ) / nDiv)) := by
  have h := sampleGroup_const_run nDiv rows s u hne hu
  refine ⟨h.1, fun hw hn => ?_⟩
  refine ⟨toCounter (sampleWeighted rows (truncRat ((u : ℚ) / nDiv)).toNat s).1,
    (sampleWeighted rows (truncRat ((u : ℚ) / nDiv)).toNat s).2, h.2 hw hn, ?_⟩
  rw [counter_snd_sum, sampleWeighted_length]
  omega

/-- Witness for the amended C2 theorem: the no-op branch at
`u = 0` and the sampling branch at `u = 7`, `n_samples_div = 4`. -/
theorem sampleGroup_samples_count_witness :
    sampleGroup 4 [⟨1, 0, 1⟩] 0 = .ok (none, 0) ∧
    (∃ c s2, sampleGroup 4 [⟨1, 7, 1⟩] 0 = .ok (some c, s2) ∧
      ((c.map Prod.snd).sum : ℤ) = truncRat ((7 : ℚ) / 4)) := by
  constructor
  · exact (sampleGroup_samples_count 4 [⟨1, 0, 1⟩] 0 0 (by simp)
      (by intro r hr; simp at hr; rw [hr])).1
      (Or.inr (by norm_num [truncRat]))
  · exact (sampleGroup_samples_count 4 [⟨1, 7, 1⟩] 0 7 (by simp)
      (by intro r hr; simp at hr; rw [hr])).2
      (by norm_num) (by norm_num [truncRat])

theorem estimatorChecked_ok (lam : Option ℚ) (g : GroupAgg) (h : g.pop_size ≠ 0) :
    estimatorChecked lam g = .ok (countUnobserved lam g) := by
  simp [estimatorChecked, countUnobserved, h]

theorem truncRat_nonpos {q : ℚ} (h : q ≤ 0) : truncRat q ≤ 0 := by
  unfold truncRat
  split
  · calc ⌊q⌋ ≤ ⌊(0 : ℚ)⌋ := Int.floor_le_floor h
    _ = 0 := by simp
  · exact Int.ceil_le.2 (by exact_mod_cast h)

theorem roundHalfEven_ge_floor (q : ℚ) : ⌊q⌋ ≤ roundHalfEven q := by
  simp only [roundHalfEven]
  split
  · exact le_refl _
  · split
    · omega
    · split <;> omega

theorem truncRat_le_roundHalfEven {q : ℚ} (h : 1 ≤ truncRat q) :
    truncRat q ≤ roundHalfEven q := by
  by_cases hq : 0 ≤ q
  · calc truncRat q = ⌊q⌋ := by unfold truncRat; rw [if_pos hq]
    _ ≤ roundHalfEven q := roundHalfEven_ge_floor q
  · have : truncRat q ≤ 0 := truncRat_nonpos (le_of_not_le hq)
    omega

theorem sum_map_add_int {α : Type} (f g : α → ℤ) :
    ∀ l : List α, (l.map fun x => f x + g x).sum = (l.map f).sum + (l.map g).sum
  | [] => by simp
  | x :: l => by
      rw [List.map_cons, List.map_cons, List.map_cons, List.sum_cons,
        List.sum_cons, List.sum_cons, sum_map_add_int f g l]
      ring

theorem sum_cast_list : ∀ l : List ℕ, ((l.map fun n : ℕ => (n : ℤ)).sum) = (l.sum : ℤ)
  | [] => by simp
  | x :: l => by
      rw [List.map_cons, List.sum_cons, sum_cast_list l, List.sum_cons]
      exact (Nat.cast_add x l.sum).symm

theorem sum_assignedOf (draws keys : List ℕ) (hnd : keys.Nodup)
    (hsub : ∀ x ∈ draws, x ∈ keys) :
    (keys.map fun uu => assignedOf (some (toCounter draws)) uu).sum =
      (draws.length : ℤ) := by
  have hcongr : (keys.map fun uu => assignedOf (some (toCounter draws)) uu) =
      keys.map fun uu => ((draws.count uu : ℕ) : ℤ) := by
    apply List.map_congr_left
    intro k _
    simp [assignedOf, lookup_toCounter]
  rw [hcongr]
  have h2 : (keys.map fun uu => ((draws.count uu : ℕ) : ℤ)) =
      (keys.map fun uu => draws.count uu).map fun n : ℕ => (n : ℤ) := by
    rw [List.map_map]
    try rfl
  rw [h2, sum_cast_list, sum_count_eq_length keys hnd draws hsub]

theorem aggOf_pop_size_ne_zero {α : Type} (uidOf : α → ℕ) (countOf : α → ℤ)
    (rate : RateRow) (rows : List α) (hne : rows ≠ []) :
    (aggOf uidOf countOf rate rows).pop_size ≠ 0 := by
  simp only [aggOf]
  intro h
  rw [List.length_eq_zero, List.dedup_eq_nil] at h
  exact hne (List.map_eq_nil_iff.1 h)

/-- A group whose estimated unobserved residual is not positive runs to
completion as a no-op: the sampler's `n_samples < 1` branch returns no
assignments and the merge fills every individual with zero. -/
theorem addUnobservedGroup_noop_run {α : Type} (uidOf : α → ℕ) (countOf : α → ℤ)
    (lam : Option ℚ) (omega : ℚ) (nDiv : ℚ) (rate : RateRow)
    (rows : List α) (s : ℕ)
    (hne : rows ≠ []) (hdiv : 0 < nDiv)
    (hunobs : (countUnobserved lam (aggOf uidOf countOf rate rows)).unobserved_crimes ≤ 0) :
    addUnobservedGroup uidOf countOf lam omega nDiv rate rows s =
      .ok (rows.map fun r => (r, 0, countOf r), s) := by
  have hpop := aggOf_pop_size_ne_zero uidOf countOf rate rows hne
  set est := countUnobserved lam (aggOf uidOf countOf rate rows) with hest
  set srows : List SampleRow := rows.map fun r =>
    ⟨uidOf r, est.unobserved_crimes,
      est.unobserved_per_person.getD 0 + omega * countOf r⟩ with hsrows
  have hu : ∀ r ∈ srows, r.unobserved = est.unobserved_crimes := by
    intro r hr
    rcases List.mem_map.1 hr with ⟨x, _, hx⟩
    rw [← hx]
  have hsne : srows ≠ [] := by
    rw [hsrows]
    intro h
    exact hne (List.map_eq_nil_iff.1 h)
  have htr : truncRat ((est.unobserved_crimes : ℚ) / nDiv) < 1 := by
    have h1 : ((est.unobserved_crimes : ℤ) : ℚ) ≤ 0 := by exact_mod_cast hunobs
    have h2 : ((est.unobserved_crimes : ℤ) : ℚ) / nDiv ≤ 0 :=
      div_nonpos_iff.2 (Or.inr ⟨h1, le_of_lt hdiv⟩)
    have := truncRat_nonpos h2
    omega
  have hsample := (sampleGroup_const_run nDiv srows s est.unobserved_crimes hsne hu).1
    (Or.inr htr)
  simp only [addUnobservedGroup, estimatorChecked_ok lam _ hpop, ← hest, ← hsrows,
    hsample, assignedOf]
  simp

/-- C9: a group whose computed `unobserved_crimes` is zero or negative (as
rounding or a total rate below the arrest rate can produce) is a silent
no-op: the sampler draws no tokens, every individual's assigned count is
zero, and every `offense_total` equals the observed `offense_count` — no
negative assignment is ever produced. -/
theorem addUnobservedGroup_noop_of_nonpos {α : Type} (uidOf : α → ℕ) (countOf : α → ℤ)
    (lam : Option ℚ) (omega : ℚ) (nDiv : ℚ) (rate : RateRow)
    (rows : List α) (s : ℕ)
    (hne : rows ≠ []) (hdiv : 0 < nDiv)
    (hunobs : (countUnobserved lam (aggOf uidOf countOf rate rows)).unobserved_crimes ≤ 0) :
    addUnobservedGroup uidOf countOf lam omega nDiv rate rows s =
      .ok (rows.map fun r => (r, 0, countOf r), s) :=
  addUnobservedGroup_noop_run uidOf countOf lam omega nDiv rate rows s hne hdiv hunobs

/-- Witness for C9: observed count 10, arrest rate `1/2`, lambda `2/5` give
`total = round(8) = 8` and `unobserved = -2 ≤ 0`; the group run is a no-op. -/
theorem addUnobservedGroup_noop_of_nonpos_witness :
    addUnobservedGroup (fun p : ℕ × ℤ => p.1) (fun p : ℕ × ℤ => p.2) none 1 1
        ⟨some (1/2), some (2/5)⟩ [(1, 10)] 0 = .ok ([((1, 10), 0, 10)], 0) := by
  have hagg : aggOf (fun p : ℕ × ℤ => p.1) (fun p : ℕ × ℤ => p.2)
      ⟨some (1/2), some (2/5)⟩ [(1, 10)] = ⟨10, some (1/2), some (2/5), 1⟩ := rfl
  have h := addUnobservedGroup_noop_of_nonpos (fun p : ℕ × ℤ => p.1)
    (fun p : ℕ × ℤ => p.2) none 1 1 ⟨some (1/2), some (2/5)⟩ [(1, 10)] 0
    (by simp) (by norm_num)
    (by rw [hagg]; norm_num [countUnobserved, arrestPositive, roundHalfEven])
  simpa using h

theorem sampleGroup_ok_inv (nDiv : ℚ) (rows : List SampleRow) (s : ℕ) (u : ℤ)
    (c : List (ℕ × ℕ)) (s2 : ℕ)
    (hne : rows ≠ []) (hu : ∀ r ∈ rows, r.unobserved = u)
    (h : sampleGroup nDiv rows s = .ok (some c, s2)) :
    c = toCounter (sampleWeighted rows (truncRat ((u : ℚ) / nDiv)).toNat s).1 ∧
    1 ≤ truncRat ((u : ℚ) / nDiv) := by
  by_cases hcond : (rows.map (·.weight)).sum ≤ 0 ∨ truncRat ((u : ℚ) / nDiv) < 1
  · rw [(sampleGroup_const_run nDiv rows s u hne hu).1 hcond] at h
    exact absurd (Prod.ext_iff.1 (Except.ok.inj h)).1 (by simp)
  · push_neg at hcond
    rw [(sampleGroup_const_run nDiv rows s u hne hu).2 hcond.1 (by omega)] at h
    have := (Prod.ext_iff.1 (Except.ok.inj h)).1
    exact ⟨(Option.some.inj this).symm, by omega⟩

/-- C4 (amended): for every group that completes successfully, the sum of
`offense_total` over the group's individuals equals the group's observed
total plus the sum of assigned synthetic counts, and the assigned sum is at
most `max 0 (round(unobserved_crimes / n_samples_div))` — the claim's bound
must be floored at zero because a group with a negative residual emits zero
assignments, which exceeds its negative rounded target. -/
theorem addUnobservedGroup_conservation {α : Type} (uidOf : α → ℕ) (countOf : α → ℤ)
    (lam : Option ℚ) (omega : ℚ) (nDiv : ℚ) (rate : RateRow)
    (rows : List α) (s : ℕ) (out : List (α × ℤ × ℤ)) (s2 : ℕ)
    (hnodup : (rows.map uidOf).Nodup)
    (hne : rows ≠ [])
    (hok : addUnobservedGroup uidOf countOf lam omega nDiv rate rows s = .ok (out, s2)) :
    ((out.map fun r => r.2.2).sum =
        (rows.map countOf).sum + (out.map fun r => r.2.1).sum) ∧
    (out.map fun r => r.2.1).sum ≤
      max 0 (roundHalfEven
        (((countUnobserved lam (aggOf uidOf countOf rate rows)).unobserved_crimes : ℚ)
          / nDiv)) := by
  have hpop := aggOf_pop_size_ne_zero uidOf countOf rate rows hne
  set est := countUnobserved lam (aggOf uidOf countOf rate rows) with hest
  set srows : List SampleRow := rows.map fun r =>
    ⟨uidOf r, est.unobserved_crimes,
      est.unobserved_per_person.getD 0 + omega * countOf r⟩ with hsrows
  have hu : ∀ r ∈ srows, r.unobserved = est.unobserved_crimes := by
    intro r hr
    rcases List.mem_map.1 hr with ⟨x, _, hx⟩
    rw [← hx]
  have hsne : srows ≠ [] := by
    rw [hsrows]
    intro h
    exact hne (List.map_eq_nil_iff.1 h)
  simp only [addUnobservedGroup, estimatorChecked_ok lam _ hpop, ← hest, ← hsrows] at hok
  cases hsg : sampleGroup nDiv srows s with
  | error e =>
      rw [hsg] at hok
      cases hok
  | ok p =>
      obtain ⟨c, s3⟩ := p
      rw [hsg] at hok
      simp only at hok
      have hpair := Prod.ext_iff.1 (Except.ok.inj hok)
      have hout : out = rows.map fun r =>
          (r, assignedOf c (uidOf r), countOf r + assignedOf c (uidOf r)) := hpair.1.symm
      subst hout
      have e1 : ((rows.map fun r =>
          (r, assignedOf c (uidOf r), countOf r + assignedOf c (uidOf r))).map
            fun r => r.2.1) = rows.map fun r => assignedOf c (uidOf r) := by
        rw [List.map_map]
        rfl
      have e2 : ((rows.map fun r =>
          (r, assignedOf c (uidOf r), countOf r + assignedOf c (uidOf r))).map
            fun r => r.2.2) = rows.map fun r => countOf r + assignedOf c (uidOf r) := by
        rw [List.map_map]
        rfl
      refine ⟨by rw [e1, e2, sum_map_add_int], ?_⟩
      rw [e1]
      cases c with
      | none =>
          simp [assignedOf]
      | some cl =>
          obtain ⟨hcl, hns⟩ := sampleGroup_ok_inv nDiv srows s est.unobserved_crimes cl s3
            hsne hu hsg
          set nS := truncRat ((est.unobserved_crimes : ℚ) / nDiv) with hnS
          have hdraws : ∀ x ∈ (sampleWeighted srows nS.toNat s).1,
              x ∈ rows.map uidOf := by
            intro x hx
            have := sampleWeighted_mem srows hsne nS.toNat s x hx
            rw [hsrows, List.map_map] at this
            exact this
          have hsum : (rows.map fun r => assignedOf (some cl) (uidOf r)).sum =
              (((sampleWeighted srows nS.toNat s).1).length : ℤ) := by
            have hmm : (rows.map fun r => assignedOf (some cl) (uidOf r)) =
                (rows.map uidOf).map fun uu => assignedOf (some cl) uu := by
              rw [List.map_map]
              rfl
            rw [hmm, hcl]
            exact sum_assignedOf _ (rows.map uidOf) hnodup hdraws
          rw [hsum, sampleWeighted_length]
          have htoNat : ((nS.toNat : ℕ) : ℤ) = nS := Int.toNat_of_nonneg (by omega)
          rw [htoNat]
          exact le_max_of_le_right (truncRat_le_roundHalfEven hns)

/-- C4 counterexample: a group with `unobserved_crimes = -2` (observed 10,
arrest rate `1/2`, lambda `2/5`) completes successfully with assigned sum
`0`, which is not `≤` the claim's rounded target `round(-2 / 1) = -2`. -/
theorem assigned_sum_exceeds_rounded_target :
    addUnobservedGroup (fun p : ℕ × ℤ => p.1) (fun p : ℕ × ℤ => p.2) none 1 1
        ⟨some (1/2), some (2/5)⟩ [(2, 10)] 0 = .ok ([((2, 10), 0, 10)], 0) ∧
    (([((2, 10), 0, 10)] : List ((ℕ × ℤ) × ℤ × ℤ)).map fun r => r.2.1).sum = 0 ∧
    roundHalfEven (((countUnobserved none (aggOf (fun p : ℕ × ℤ => p.1)
        (fun p : ℕ × ℤ => p.2) ⟨some (1/2), some (2/5)⟩ [(2, 10)])).unobserved_crimes : ℚ)
      / 1) = -2 ∧
    ¬ ((0 : ℤ) ≤ -2) := by
  have hagg : aggOf (fun p : ℕ × ℤ => p.1) (fun p : ℕ × ℤ => p.2)
      ⟨some (1/2), some (2/5)⟩ [(2, 10)] = ⟨10, some (1/2), some (2/5), 1⟩ := rfl
  refine ⟨?_, by simp, ?_, by norm_num⟩
  · have h := addUnobservedGroup_noop_run (fun p : ℕ × ℤ => p.1) (fun p : ℕ × ℤ => p.2)
      none 1 1 ⟨some (1/2), some (2/5)⟩ [(2, 10)] 0 (by simp) (by norm_num)
      (by rw [hagg]; norm_num [countUnobserved, arrestPositive, roundHalfEven])
    simpa using h
  · rw [hagg]
    norm_num [countUnobserved, arrestPositive, roundHalfEven]

/-- Witness for the amended C4 theorem at a concrete successful group run. -/
theorem addUnobservedGroup_conservation_witness :
    (([((3, 10), 0, 10)] : List ((ℕ × ℤ) × ℤ × ℤ)).map fun r => r.2.2).sum =
      ([((3 : ℕ), (10 : ℤ))].map fun p : ℕ × ℤ => p.2).sum +
      (([((3, 10), 0, 10)] : List ((ℕ × ℤ) × ℤ × ℤ)).map fun r => r.2.1).sum ∧
    (([((3, 10), 0, 10)] : List ((ℕ × ℤ) × ℤ × ℤ)).map fun r => r.2.1).sum ≤
      max 0 (roundHalfEven (((countUnobserved none (aggOf (fun p : ℕ × ℤ => p.1)
        (fun p : ℕ × ℤ => p.2) ⟨some (1/2), some (2/5)⟩
          [(3, 10)])).unobserved_crimes : ℚ) / 1)) := by
  have hagg : aggOf (fun p : ℕ × ℤ => p.1) (fun p : ℕ × ℤ => p.2)
      ⟨some (1/2), some (2/5)⟩ [(3, 10)] = ⟨10, some (1/2), some (2/5), 1⟩ := rfl
  have hok : addUnobservedGroup (fun p : ℕ × ℤ => p.1) (fun p : ℕ × ℤ => p.2) none 1 1
      ⟨some (1/2), some (2/5)⟩ [(3, 10)] 0 = .ok ([((3, 10), 0, 10)], 0) := by
    have h := addUnobservedGroup_noop_run (fun p : ℕ × ℤ => p.1) (fun p : ℕ × ℤ => p.2)
      none 1 1 ⟨some (1/2), some (2/5)⟩ [(3, 10)] 0 (by simp) (by norm_num)
      (by rw [hagg]; norm_num [countUnobserved, arrestPositive, roundHalfEven])
    simpa using h
  exact addUnobservedGroup_conservation (fun p : ℕ × ℤ => p.1) (fun p : ℕ × ℤ => p.2)
    none 1 1 ⟨some (1/2), some (2/5)⟩ [(3, 10)] 0 [((3, 10), 0, 10)] 0
    (by simp) (by simp) hok

theorem daysSpan_bounds (y : ℕ) : ∀ n : ℕ,
    365 * n ≤ ((List.range n).map fun i => daysInYear (y + i)).sum ∧
    ((List.range n).map fun i => daysInYear (y + i)).sum ≤ 366 * n
  | 0 => by simp
  | n + 1 => by
      have ih := daysSpan_bounds y n
      rw [List.range_succ, List.map_append, List.sum_append]
      simp only [List.map_cons, List.map_nil, List.sum_cons, List.sum_nil]
      have h1 : 365 ≤ daysInYear (y + n) := by unfold daysInYear; split <;> omega
      have h2 : daysInYear (y + n) ≤ 366 := by unfold daysInYear; split <;> omega
      omega

/-- C8 counterexample: born 1992-01-01 with window end year 2009, the
individual turns exactly 17 on 2009-01-01 — under 18 years of age — yet the
fractional age `6210 / 365.25 ≈ 17.002` exceeds the bin edge `17`, so the
row is kept and labelled `18-29` instead of being excluded. -/
theorem underage_row_kept :
    addAgeRow 2009 ⟨1992, 0⟩ = some "18-29" ∧ 2009 - 1992 < 18 := by
  refine ⟨?_, by decide⟩
  have hd : ageDays 2009 ⟨1992, 0⟩ = 6210 := by decide
  simp only [addAgeRow, hd]
  norm_num

/-- C8 (amended): the age category is re-derived from date of birth relative
to `end_year`; every row whose fractional age (`days / 365.25`) is at most 17
is dropped — which covers every under-10 individual — and a date of birth
exactly 18 years before `end_year` always lands in the `18-29` bucket.
(Under-18 individuals whose fractional age exceeds 17 are NOT dropped: see
the counterexample.) -/
theorem addAgeRow_buckets :
    (∀ (e : ℕ) (dob : Date), 100 * ageDays e dob ≤ 620925 →
      addAgeRow e dob = none) ∧
    (∀ e : ℕ, 18 ≤ e → addAgeRow e ⟨e - 18, 0⟩ = some "18-29") := by
  constructor
  · intro e dob hle
    simp only [addAgeRow]
    by_cases h10 : (10 : ℚ) < ((ageDays e dob : ℤ) : ℚ) / (36525 / 100)
    · have hage : ((ageDays e dob : ℤ) : ℚ) / (36525 / 100) ≤ 17 := by
        rw [div_le_iff₀ (by norm_num : (0 : ℚ) < 36525 / 100)]
        have hc : ((100 * ageDays e dob : ℤ) : ℚ) ≤ ((620925 : ℤ) : ℚ) := by
          exact_mod_cast hle
        push_cast at hc
        linarith
      rw [if_pos h10, if_pos ⟨lt_trans (by norm_num) h10, hage⟩]
    · rw [if_neg h10]
  · intro e he
    have hrange : e - (e - 18) = 18 := by omega
    set S : ℕ := ((List.range 18).map fun i => daysInYear (e - 18 + i)).sum with hS
    have hd : ageDays e ⟨e - 18, 0⟩ = (S : ℤ) := by
      simp [ageDays, hrange, hS]
    have hb := daysSpan_bounds (e - 18) 18
    rw [← hS] at hb
    have hS1 : (6570 : ℚ) ≤ (S : ℚ) := by exact_mod_cast hb.1
    have hS2 : (S : ℚ) ≤ 6588 := by exact_mod_cast hb.2
    simp only [addAgeRow, hd]
    have h10 : (10 : ℚ) < ((S : ℤ) : ℚ) / (36525 / 100) := by
      rw [lt_div_iff₀ (by norm_num : (0 : ℚ) < 36525 / 100)]
      push_cast
      linarith
    have hn17 : ¬ ((S : ℤ) : ℚ) / (36525 / 100) ≤ 17 := by
      rw [div_le_iff₀ (by norm_num : (0 : ℚ) < 36525 / 100)]
      push_cast
      intro hc
      linarith
    have h17 : (17 : ℚ) < ((S : ℤ) : ℚ) / (36525 / 100) := by
      rw [lt_div_iff₀ (by norm_num : (0 : ℚ) < 36525 / 100)]
      push_cast
      linarith
    have h29 : ((S : ℤ) : ℚ) / (36525 / 100) ≤ 29 := by
      rw [div_le_iff₀ (by norm_num : (0 : ℚ) < 36525 / 100)]
      push_cast
      linarith
    rw [if_pos h10, if_neg (fun hc => hn17 hc.2), if_pos ⟨h17, h29⟩]

/-- Witness for the amended C8 theorem: a five-year-old's row is dropped, and
a dob exactly 18 years before the end year is bucketed `18-29`. -/
theorem addAgeRow_buckets_witness :
    addAgeRow 2009 ⟨2004, 0⟩ = none ∧ addAgeRow 2010 ⟨1992, 0⟩ = some "18-29" := by
  constructor
  · exact addAgeRow_buckets.1 2009 ⟨2004, 0⟩ (by decide)
  · exact addAgeRow_buckets.2 2010 (by norm_num)

/-- C10 counterexample: with observed count 5, arrest rate `1/2 > 0`, a NaN
lambda column and no global override, the estimator does not raise: the NaN
propagates through `np.where(...).round()` and the numpy int cast silently
yields the implementation-defined `npNanInt`; the computation returns
successfully. -/
theorem estimator_nan_lambda_no_exception :
    (estimatorChecked none ⟨5, some (1/2), none, 2⟩).isOk = true ∧
    (countUnobserved none ⟨5, some (1/2), none, 2⟩).total_crimes = npNanInt := by
  constructor
  · norm_num [estimatorChecked, countUnobserved, arrestPositive, Except.isOk, Except.toBool]
  · norm_num [countUnobserved, arrestPositive]

/-- C10 (amended): for any positive arrest rate, missing lambda-rate value
and absent override, the `astype('int')` cast raises no exception: the group
completes with `total_crimes` equal to the implementation-defined NaN cast
value `npNanInt`, and the downstream `unobserved_per_person` NaN guard sees a
finite value and does not fire. -/
theorem estimator_nan_lambda_silent (obs : ℤ) (ar : ℚ) (pop : ℕ)
    (har : 0 < ar) (hpop : pop ≠ 0) :
    estimatorChecked none ⟨obs, some ar, none, pop⟩ =
      .ok ⟨npNanInt, npNanInt - obs, some (((npNanInt - obs : ℤ) : ℚ) / (pop : ℚ))⟩ := by
  simp [estimatorChecked, countUnobserved, arrestPositive, har, hpop]

/-- Witness for the amended C10 theorem at observed 5, arrest rate `1/2`,
population 2. -/
theorem estimator_nan_lambda_silent_witness :
    estimatorChecked none ⟨5, some (1/2), none, 2⟩ =
      .ok ⟨npNanInt, npNanInt - 5, some (((npNanInt - 5 : ℤ) : ℚ) / ((2 : ℕ) : ℚ))⟩ :=
  estimator_nan_lambda_silent 5 (1/2) 2 (by norm_num) (by decide)

theorem windowStep_guard_cases (crimes : List String) (cohort : ℤ → List Person)
    (r1 r2 : ℤ → GKey → RateRow) (sy ey w : ℤ) (lam : Option ℚ) (om : ℚ)
    (we : ℤ) (nDiv : ℚ) (s : ℕ) :
    (¬ (sy ≤ we - w ∧ we - w ≤ ey) →
      windowStep crimes cohort r1 r2 sy ey w lam om we nDiv s =
        .error "Last year not compatible with start year and window.") ∧
    ((sy ≤ we - w ∧ we - w ≤ ey) →
      windowStep crimes cohort r1 r2 sy ey w lam om we nDiv s =
        windowBody crimes cohort r1 r2 w lam om we nDiv s) := by
  constructor
  · intro h
    rw [windowStep, if_pos h]
  · intro h
    rw [windowStep, if_neg (not_not.2 h)]

/-- C7 counterexample: with `start_year = 2000`, `end_year = 2010` and
`window = 3`, the window end-year `2001` lies inside `[2000, 2010]`, yet the
window computation rejects it, because the code bounds the window START year
`window_end - window = 1998`, not the end-year. -/
theorem inside_bound_end_year_rejected :
    windowStep [] (fun _ => []) (fun _ _ => ⟨none, none⟩) (fun _ _ => ⟨none, none⟩)
        2000 2010 3 none 1 2001 1 0 =
      .error "Last year not compatible with start year and window." ∧
    (2000 : ℤ) ≤ 2001 ∧ (2001 : ℤ) ≤ 2010 := by
  refine ⟨?_, by norm_num, by norm_num⟩
  rw [windowStep, if_pos (by norm_num)]

/-- C7 (amended): the configuration guard bounds the window's START year
`window_end - window` by `[start_year, end_year]`: outside that bound the
computation is rejected with the configuration error for every choice of
data provider — hence before any data access — and inside it the guard
passes and the window body runs. -/
theorem windowStep_bounds_check (crimes : List String) (cohort : ℤ → List Person)
    (r1 r2 : ℤ → GKey → RateRow) (sy ey w : ℤ) (lam : Option ℚ) (om : ℚ)
    (we : ℤ) (nDiv : ℚ) (s : ℕ) :
    (¬ (sy ≤ we - w ∧ we - w ≤ ey) →
      windowStep crimes cohort r1 r2 sy ey w lam om we nDiv s =
        .error "Last year not compatible with start year and window.") ∧
    ((sy ≤ we - w ∧ we - w ≤ ey) →
      windowStep crimes cohort r1 r2 sy ey w lam om we nDiv s =
        windowBody crimes cohort r1 r2 w lam om we nDiv s) :=
  windowStep_guard_cases crimes cohort r1 r2 sy ey w lam om we nDiv s

/-- Witness for the amended C7 theorem: end-year 2030 is rejected
(`2030 - 3 > 2010`) and end-year 2003 passes the guard (`2003 - 3 = 2000`). -/
theorem windowStep_bounds_check_witness :
    windowStep [] (fun _ => []) (fun _ _ => ⟨none, none⟩) (fun _ _ => ⟨none, none⟩)
        2000 2010 3 none 1 2030 1 0 =
      .error "Last year not compatible with start year and window." ∧
    windowStep [] (fun _ => []) (fun _ _ => ⟨none, none⟩) (fun _ _ => ⟨none, none⟩)
        2000 2010 3 none 1 2003 1 0 =
      windowBody [] (fun _ => []) (fun _ _ => ⟨none, none⟩) (fun _ _ => ⟨none, none⟩)
        3 none 1 2003 1 0 := by
  constructor
  · exact (windowStep_bounds_check [] (fun _ => []) (fun _ _ => ⟨none, none⟩)
      (fun _ _ => ⟨none, none⟩) 2000 2010 3 none 1 2030 1 0).1 (by norm_num)
  · exact (windowStep_bounds_check [] (fun _ => []) (fun _ _ => ⟨none, none⟩)
      (fun _ _ => ⟨none, none⟩) 2000 2010 3 none 1 2003 1 0).2 (by norm_num)

/-- C5: whenever a window computation returns a result, the recombined row
count equals the row count immediately after the melt; a mismatch raises the
`RuntimeError` and no result is returned. -/
theorem windowStep_row_count (crimes : List String) (cohort : ℤ → List Person)
    (r1 r2 : ℤ → GKey → RateRow) (sy ey w : ℤ) (lam : Option ℚ) (om : ℚ)
    (we : ℤ) (nDiv : ℚ) (s : ℕ) (out : List (WRow × ℤ × ℤ)) (s2 : ℕ)
    (hok : windowStep crimes cohort r1 r2 sy ey w lam om we nDiv s = .ok (out, s2)) :
    out.length = (melt crimes (cohort (we - w))).length := by
  rw [windowStep] at hok
  split at hok
  · cases hok
  · simp only [windowBody] at hok
    cases h1 : processPartition lam om nDiv (r1 (we - w))
        ((melt crimes (cohort (we - w))).filter
          fun r => ¬ r.offense_category ∈ nsduhCrimes) s with
    | error e => rw [h1] at hok; cases hok
    | ok p1 =>
      obtain ⟨out1, s1⟩ := p1
      rw [h1] at hok
      simp only at hok
      cases h2 : processPartition lam om nDiv (r2 (we - w))
          ((melt crimes (cohort (we - w))).filter
            fun r => r.offense_category ∈ nsduhCrimes) s1 with
      | error e => rw [h2] at hok; cases hok
      | ok p2 =>
        obtain ⟨out2, s3⟩ := p2
        rw [h2] at hok
        simp only at hok
        by_cases hl : (out1 ++ out2).length ≠ (melt crimes (cohort (we - w))).length
        · rw [if_pos hl] at hok
          cases hok
        · rw [if_neg hl] at hok
          injection hok with hp
          injection hp with ha hb
          push_neg at hl
          rw [← ha]
          exact hl

/-- Witness for C5: a one-row window computation succeeds and its output row
count equals the melted row count. -/
theorem windowStep_row_count_witness :
    ([(exampleRow, 0, 2)] : List (WRow × ℤ × ℤ)).length =
      (melt ["theft"] (exampleCohort ((2003 : ℤ) - 3))).length := by
  have hmelt : melt ["theft"] (exampleCohort ((2003 : ℤ) - 3)) = [exampleRow] := rfl
  have hagg : aggOf (fun r : WRow => r.uid) (fun r : WRow => r.offense_count)
      (exampleRates ((2003 : ℤ) - 3) (groupKey exampleRow)) [exampleRow] =
      ⟨2, some 1, some 1, 1⟩ := rfl
  have hgrp : addUnobservedGroup (fun r : WRow => r.uid)
      (fun r : WRow => r.offense_count) none 1 1
      (exampleRates ((2003 : ℤ) - 3) (groupKey exampleRow)) [exampleRow] 0 =
      .ok ([(exampleRow, 0, 2)], 0) := by
    have h := addUnobservedGroup_noop_run (fun r : WRow => r.uid)
      (fun r : WRow => r.offense_count) none 1 1
      (exampleRates ((2003 : ℤ) - 3) (groupKey exampleRow)) [exampleRow] 0
      (by simp) (by norm_num)
      (by rw [hagg]; norm_num [countUnobserved, arrestPositive, roundHalfEven])
    simpa using h
  have hpart1 : processPartition none 1 1 (exampleRates ((2003 : ℤ) - 3))
      [exampleRow] 0 = .ok ([(exampleRow, 0, 2)], 0) := by
    have hkeys : (([exampleRow].map groupKey).dedup) = [groupKey exampleRow] := rfl
    have hfk : ([exampleRow].filter fun r => groupKey r = groupKey exampleRow) =
        [exampleRow] := rfl
    rw [processPartition, hkeys]
    simp only [processGroups]
    rw [hfk, hgrp]
    simp
  have hpart2 : processPartition none 1 1 (exampleRates ((2003 : ℤ) - 3))
      ([] : List WRow) 0 = .ok ([], 0) := rfl
  have hf1 : ([exampleRow].filter fun r => ¬ r.offense_category ∈ nsduhCrimes) =
      [exampleRow] := rfl
  have hf2 : ([exampleRow].filter fun r => r.offense_category ∈ nsduhCrimes) =
      ([] : List WRow) := rfl
  have hok : windowStep ["theft"] exampleCohort exampleRates exampleRates
      2000 2005 3 none 1 2003 1 0 = .ok ([(exampleRow, 0, 2)], 0) := by
    rw [windowStep, if_neg (by norm_num)]
    simp only [windowBody]
    rw [hmelt, hf1, hf2, hpart1]
    simp only
    rw [hpart2]
    simp
  exact windowStep_row_count ["theft"] exampleCohort exampleRates exampleRates
    2000 2005 3 none 1 2003 1 0 [(exampleRow, 0, 2)] 0 hok

/-- C6: determinism — the generator is created from the seed alone
(`np.random.RandomState(seed=seed)`) and threaded explicitly through every
window, so for fixed providers and parameters an equal seed yields an
identical run. -/
theorem rollingCrimeAssignment_deterministic (crimes : List String)
    (cohort : ℤ → List Person) (r1 r2 : ℤ → GKey → RateRow)
    (sy ey w : ℤ) (lam : Option ℚ) (om : ℚ) (seed1 seed2 : ℕ)
    (h : seed1 = seed2) :
    rollingCrimeAssignment crimes cohort r1 r2 sy ey w lam om seed1 =
      rollingCrimeAssignment crimes cohort r1 r2 sy ey w lam om seed2 := by
  rw [h]

/-- Witness for C6: two runs of the full rolling assignment on the example
cohort with seed 0 coincide. -/
theorem rollingCrimeAssignment_deterministic_witness :
    rollingCrimeAssignment ["theft"] exampleCohort exampleRates exampleRates
        2000 2005 3 none 1 0 =
      rollingCrimeAssignment ["theft"] exampleCohort exampleRates exampleRates
        2000 2005 3 none 1 0 :=
  rollingCrimeAssignment_deterministic ["theft"] exampleCohort exampleRates
    exampleRates 2000 2005 3 none 1 0 0 rfl

end CJPipeline

